import Mathlib

/-!
Shallow embedding of the core logic of the `hvec_tide` package
(modules `hvec_tide/analysers.py` and `hvec_tide/parsers.py`) and
verification of its specification claims.

Water levels, amplitudes and statistics are modelled as rationals.
The external harmonic solver (`utide.solve`), the reconstruction
routine (`utide.reconstruct`) and the goodness-of-fit collaborator
(`hvec_stat.goodness_of_fit.Rsq_adj`) are outside the repository and
are modelled as parameters: a solve outcome is `Except String
CoefficientSet` (the code turns a raised exception into its message
string), reconstruction is a function from a coefficient set to the
predicted level sequence for the fixed timestamp vector, and the
adjusted R-squared is a rational parameter.
-/

set_option autoImplicit false

namespace HvecTide

/-- The result object of `utide.solve` (a `Bunch`), restricted to the
fields read by this repository.  Per the solver contract the
per-constituent arrays are index-aligned with `name`.  Optional fields
(`slope`, `rms_resid`, `A_ci`, `g_ci`) model the dynamic
`-- in sol.keys()` checks done by `parse_utide`. -/
structure CoefficientSet where
  name : List String
  A : List ℚ
  g : List ℚ
  PE : List ℚ
  mean : ℚ
  slope : Option ℚ
  rms_resid : Option ℚ
  A_ci : Option (List ℚ)
  g_ci : Option (List ℚ)
  frq : List ℚ
  deriving DecidableEq

/-- The solve result after `run_utide_solve` attached its extra
statistics (`sol.zmean`, `sol.count`, `sol.smean`, `sol.smin`,
`sol.smax`, `sol.Rsq_adj`, `sol.correlation_method`). -/
structure AugmentedCoefficientSet extends CoefficientSet where
  zmean : ℚ
  count : ℕ
  smean : ℚ
  smin : ℚ
  smax : ℚ
  Rsq_adj : Option ℚ
  correlation_method : String
  deriving DecidableEq

/-- Arithmetic mean of a list, `0` for the empty list (numpy `.mean()`
raises a warning and yields NaN on empty input; every use in the
repository is applied to a non-empty segment). -/
def listMean (l : List ℚ) : ℚ := l.sum / l.length

/-- numpy `.min()`: minimum of a non-empty list, junk value `0` on `[]`. -/
def listMin : List ℚ → ℚ
  | [] => 0
  | x :: xs => xs.foldl min x

/-- numpy `.max()`: maximum of a non-empty list, junk value `0` on `[]`. -/
def listMax : List ℚ → ℚ
  | [] => 0
  | x :: xs => xs.foldl max x

/-- Elementwise numpy subtraction `h - hmodel`: the wind-setup
residual sequence. -/
def residual (h hmodel : List ℚ) : List ℚ :=
  List.zipWith (fun a b => a - b) h hmodel

/-- `analysers.run_utide_solve`: call the solver; on an exception
return the message string (`sol = str(e)`).  On success attach
`zmean = h.mean()`, `count = h.count()`, the adjusted R-squared from
the goodness-of-fit collaborator, and the statistics of the residual
`s = h - hmodel` where `hmodel = ut.reconstruct(t, sol).h`. -/
def run_utide_solve (solveResult : Except String CoefficientSet)
    (reconstruct : CoefficientSet → List ℚ) (rsq : ℚ) (meth_N : String)
    (h : List ℚ) : Except String AugmentedCoefficientSet :=
  match solveResult with
  | .error e => .error e
  | .ok sol =>
    let hmodel := reconstruct sol
    let s := residual h hmodel
    .ok { toCoefficientSet := sol
          zmean := listMean h
          count := h.length
          smean := listMean s
          smin := listMin s
          smax := listMax s
          Rsq_adj := some rsq
          correlation_method := meth_N }

/-- Running cumulative sums, numpy `.cumsum()`:
`cumsum [a, b, c] = [a, a+b, a+b+c]`. -/
def cumsum (l : List ℚ) : List ℚ :=
  (l.scanl (fun a b => a + b) 0).tail

/-- numpy `.argmax()` on a boolean array: index of the first `true`
when one exists, otherwise `0` (all entries equal the maximum `false`
and the first index wins). -/
def argmaxBool : List Bool → ℕ
  | [] => 0
  | b :: rest =>
    if b then 0
    else if rest.any (fun x => x) then argmaxBool rest + 1 else 0

/-- `analysers.select_constituents`, lines 45-56: run the solver on
the observations; on any raised error return the sentinel list
`["Error raised"]` (the bare `except:`; a string solve result also
lands there because `coef.PE` then raises).  Otherwise take
`idMx = (coef.PE.cumsum() > thr).argmax()` and return
`coef.name[:idMx]`. -/
def select_constituents (solveResult : Except String CoefficientSet)
    (thr : ℚ) : List String :=
  match solveResult with
  | .error _ => ["Error raised"]
  | .ok coef =>
    let idMx := argmaxBool ((cumsum coef.PE).map (fun x => decide (thr < x)))
    coef.name.take idMx

/-- The concrete coefficient set of spec section 8: four constituents
with percentage energies [70, 20, 9, 1]. -/
def peExampleCoef : CoefficientSet :=
  { name := ["c1", "c2", "c3", "c4"]
    A := [7, 2, 9/10, 1/10]
    g := [0, 0, 0, 0]
    PE := [70, 20, 9, 1]
    mean := 0
    slope := none
    rms_resid := none
    A_ci := none
    g_ci := none
    frq := [2, 2, 1, 1] }

/-- A one-row DataFrame: ordered association list of column name to
value.  Column order is the pandas column order. -/
abbrev FlatRecord := List (String × ℚ)

/-- Column read `df[k]`: the value at the first column named `k`,
`none` modelling a raised KeyError. -/
def getCol (df : FlatRecord) (k : String) : Option ℚ :=
  (df.find? (fun p => p.1 == k)).map Prod.snd

/-- Whether the frame has a column named `k`. -/
def hasCol (df : FlatRecord) (k : String) : Bool :=
  df.any (fun p => p.1 == k)

/-- Column write `df[k] = v`: pandas overwrites an existing column in
place and appends a new column at the end. -/
def setCol (df : FlatRecord) (k : String) (v : ℚ) : FlatRecord :=
  if hasCol df k then df.map (fun p => if p.1 == k then (k, v) else p)
  else df ++ [(k, v)]

/-- One assignment line of `_parse_characteristic_levels` (lines
37-40): the right-hand side reads columns `z0`, `M2_ampl` and
`S2_ampl` — raising KeyError (`none`) when one is absent, before
anything is written — and the result is stored in column `k`. -/
def charLevelStep (df : FlatRecord) (k : String) (f : ℚ → ℚ → ℚ → ℚ) :
    Option FlatRecord :=
  match getCol df "z0", getCol df "M2_ampl", getCol df "S2_ampl" with
  | some z, some m, some s => some (setCol df k (f z m s))
  | _, _, _ => none

/-- The four in-place assignments of `_parse_characteristic_levels`,
together with the state of the frame at the point where a KeyError
interrupts them: returns the final frame and whether all four
assignments completed. -/
def charLevelsRun (df : FlatRecord) : FlatRecord × Bool :=
  match charLevelStep df "MHWS" (fun z m s => z + m + s) with
  | none => (df, false)
  | some df1 =>
    match charLevelStep df1 "MLWS" (fun z m s => z - m - s) with
    | none => (df1, false)
    | some df2 =>
      match charLevelStep df2 "MHWN" (fun z m s => z + m - s) with
      | none => (df2, false)
      | some df3 =>
        match charLevelStep df3 "MLWN" (fun z m s => z - m + s) with
        | none => (df3, false)
        | some df4 => (df4, true)

/-- `parsers._parse_characteristic_levels`: the value returned to the
caller — the augmented frame, or Python `None` when a KeyError was
caught by the `except` clause. -/
def parse_characteristic_levels (df : FlatRecord) : Option FlatRecord :=
  match charLevelsRun df with
  | (d, true) => some d
  | (_, false) => none

/-- The parallel `names` / `data` accumulators of `parse_utide`. -/
structure Build where
  names : List String
  data : List ℚ
  deriving DecidableEq

/-- One `np.hstack` append step applied to both accumulators. -/
def hstack (b : Build) (ns : List String) (ds : List ℚ) : Build :=
  { names := b.names ++ ns, data := b.data ++ ds }

/-- Lines 79-129 of `parsers.parse_utide`: sequentially extend the
`names` and `data` accumulators, mirroring each `np.hstack` pair and
each `in sol.keys()` presence check of the source. -/
def parse_utide_build (sol : AugmentedCoefficientSet)
    (include_phase include_freq : Bool) : Build :=
  let b := hstack { names := [], data := [] } ["z0"] [sol.mean]
  let b := hstack b ["zmean"] [sol.zmean]
  let b := hstack b ["count"] [(sol.count : ℚ)]
  let b := hstack b (sol.name.map (fun n => n ++ "_ampl")) sol.A
  let b := hstack b ["smean"] [sol.smean]
  let b := hstack b ["smin"] [sol.smin]
  let b := hstack b ["smax"] [sol.smax]
  let b := if include_phase then
      hstack b (sol.name.map (fun n => n ++ "_phase")) sol.g
    else b
  let b := match sol.slope with
    | some v => hstack b ["slope"] [v]
    | none => b
  let b := match sol.rms_resid with
    | some v => hstack b ["rms_resid"] [v]
    | none => b
  let b := match sol.A_ci with
    | some ci => hstack b (sol.name.map (fun n => n ++ "_A_ci")) ci
    | none => b
  let b := match sol.g_ci, include_phase with
    | some ci, true => hstack b (sol.name.map (fun n => n ++ "_g_ci")) ci
    | _, _ => b
  let b := match sol.Rsq_adj with
    | some v => hstack b ["Rsq_adj"] [v]
    | none => b
  let b := if include_freq then
      hstack b (sol.name.map (fun n => n ++ "_frq")) sol.frq
    else b
  b

/-- `parsers.parse_utide`: build the one-row frame (column names
paired with the data row); when `include_char_levels` is set the
result is whatever `_parse_characteristic_levels` returned — which is
Python `None` when the `M2_ampl` or `S2_ampl` column is missing.  The
`include_windeffect` flag is accepted and never read, as in the
source. -/
def parse_utide (sol : AugmentedCoefficientSet)
    (include_char_levels include_windeffect include_phase include_freq : Bool) :
    Option FlatRecord :=
  let b := parse_utide_build sol include_phase include_freq
  let res : FlatRecord := b.names.zip b.data
  if include_char_levels then parse_characteristic_levels res
  else some res

/-- The solve result of a fit holding only the diurnal constituent K1:
no `M2_ampl` or `S2_ampl` column will exist in the flat record. -/
def k1OnlySol : AugmentedCoefficientSet :=
  { name := ["K1"], A := [3/10], g := [0], PE := [100], mean := 1/10,
    slope := none, rms_resid := none, A_ci := none, g_ci := none, frq := [1],
    zmean := 1/10, count := 24, smean := 0, smin := -(1/10), smax := 1/10,
    Rsq_adj := some (9/10), correlation_method := "Bence" }

/-- Outcome of a Python call: a normal return value, or a raised
exception carrying a message. -/
inductive PyResult (α : Type) where
  | ret (val : α)
  | exn (msg : String)

/-- `analysers.tide_and_setup` with its default `sol = 'none'`
argument (lines 96-157): run `run_utide_solve`; if and only if the
resulting value equals the string `"Utide failed"` return Python
`None` (the bare `return` on line 144).  Any other failure string
flows into `ut.reconstruct(t, sol)`, which raises on a string
argument (it reads coefficient attributes that a string does not
have) — modelled as `PyResult.exn`.  On a valid solve the function
returns the tuple
`(h_astr, s, s_min, s_mean, s_max)` of line 157. -/
def tide_and_setup (solveResult : Except String CoefficientSet)
    (reconstruct : CoefficientSet → List ℚ) (rsq : ℚ) (meth_N : String)
    (h : List ℚ) :
    PyResult (Option (List ℚ × List ℚ × ℚ × ℚ × ℚ)) :=
  match run_utide_solve solveResult reconstruct rsq meth_N h with
  | .error e =>
    if e = "Utide failed" then .ret none
    else .exn "reconstruct requires a coefficient result"
  | .ok sol =>
    let h_astr := reconstruct sol.toCoefficientSet
    let s := residual h h_astr
    .ret (some (h_astr, s, listMin s, listMean s, listMax s))

/-- One (time-bucket, location) segment of the long series, bundled
with the behavior of the external collaborators on it: the solver
outcome, the observed levels, the reconstructed levels for the
segment timestamps, and the adjusted R-squared value. -/
structure Segment where
  solveResult : Except String CoefficientSet
  h : List ℚ
  hmodel : List ℚ
  rsq : ℚ

/-- Whether a solve call produced a usable fit rather than a failure
string. -/
def solveOk (r : Except String CoefficientSet) : Bool :=
  match r with
  | .ok _ => true
  | .error _ => false

/-- `analysers._constit_segment`: run the solve for the group; a
string result means the group contributes nothing (the bare `return`
→ Python `None`); otherwise flatten with `parse_utide`
(`include_windeffect` keeps its default `True`). -/
def constit_segment (seg : Segment)
    (include_phase include_char_levels include_freq : Bool) :
    Option FlatRecord :=
  match run_utide_solve seg.solveResult (fun _ => seg.hmodel) seg.rsq
      "Bence" seg.h with
  | .error _ => none
  | .ok sol =>
    parse_utide sol include_char_levels true include_phase include_freq

/-- `analysers._timeseries_segment`: run the solve for the group; a
string result means the group contributes nothing; otherwise attach
the reconstructed level `h_astr` and the setup residual to every
observation row of the group. -/
def timeseries_segment (seg : Segment) : Option (List (ℚ × ℚ × ℚ)) :=
  match run_utide_solve seg.solveResult (fun _ => seg.hmodel) seg.rsq
      "Bence" seg.h with
  | .error _ => none
  | .ok _ =>
    let h_astr := seg.hmodel
    let s := residual seg.h h_astr
    some (seg.h.zip (h_astr.zip s))

/-- The constituent table of `analysers.analyse_long_series`: the
per-group results of `_constit_segment` concatenated, with the groups
whose applied function returned `None` dropped (pandas
`groupby.apply` drops them).  The call on lines 276-280 passes only
`include_phase`, so `include_char_levels` and `include_freq` keep
their `False` defaults. -/
def analyse_constit (segs : List Segment) (include_phase : Bool) :
    List FlatRecord :=
  segs.flatMap (fun seg =>
    (constit_segment seg include_phase false false).toList)

/-- The augmented time series of `analysers.analyse_long_series`:
per-group rows of `_timeseries_segment` concatenated, groups that
returned `None` dropped. -/
def analyse_timeseries (segs : List Segment) : List (ℚ × ℚ × ℚ) :=
  segs.flatMap (fun seg => (timeseries_segment seg).getD [])

/-- `analysers.analyse_long_series`: always produce the constituent
table; produce the augmented time series only when
`create_time_series` is set (otherwise an empty frame is returned in
its place). -/
def analyse_long_series (segs : List Segment)
    (create_time_series include_phase : Bool) :
    List (ℚ × ℚ × ℚ) × List FlatRecord :=
  if create_time_series then
    (analyse_timeseries segs, analyse_constit segs include_phase)
  else ([], analyse_constit segs include_phase)

/-- A concrete successful solve for witnesses: observations `[2, 0]`
reconstructed as `[1, 1]`, residual `[1, -1]`. -/
def runExampleSol : AugmentedCoefficientSet :=
  { toCoefficientSet := peExampleCoef, zmean := 1, count := 2,
    smean := 0, smin := -1, smax := 1, Rsq_adj := some (1/2),
    correlation_method := "Bence" }

/-- A segment whose solve succeeds. -/
def segOkExample : Segment :=
  { solveResult := Except.ok peExampleCoef, h := [1, 2],
    hmodel := [1, 1], rsq := 1/2 }

/-- A segment whose solve fails with a message string. -/
def segFailExample : Segment :=
  { solveResult := Except.error "too few points", h := [5],
    hmodel := [], rsq := 0 }

/-- If the first `true` in `bs` sits at index `i`, numpy argmax
returns `i`. -/
theorem argmaxBool_eq_first_true (bs : List Bool) (i : ℕ) (hi : i < bs.length)
    (ht : bs[i] = true) (hlt : ∀ j, (hj : j < i) → bs[j] = false) :
    argmaxBool bs = i := by
  induction bs generalizing i with
  | nil => simp at hi
  | cons b rest ih =>
    match i with
    | 0 =>
      simp at ht
      simp [argmaxBool, ht]
    | k + 1 =>
      have hb : b = false := by
        have := hlt 0 (Nat.succ_pos k)
        simpa using this
      have hk : k < rest.length := by simpa using hi
      have htk : rest[k] = true := by simpa using ht
      have hany : rest.any (fun x => x) = true := by
        rw [List.any_eq_true]
        exact ⟨rest[k], List.getElem_mem hk, htk⟩
      have ihk : argmaxBool rest = k := by
        apply ih k hk htk
        intro j hj
        have := hlt (j + 1) (by omega)
        simpa using this
      simp [argmaxBool, hb, hany, ihk]

/-- If no entry of `bs` is `true`, numpy argmax returns `0`. -/
theorem argmaxBool_of_all_false (bs : List Bool)
    (h : ∀ b ∈ bs, b = false) : argmaxBool bs = 0 := by
  cases bs with
  | nil => rfl
  | cons b rest =>
    have hb : b = false := h b (List.mem_cons_self b rest)
    have hany : rest.any (fun x => x) = false := by
      rw [List.any_eq_false]
      intro x hx
      simp [h x (List.mem_cons_of_mem b hx)]
    simp [argmaxBool, hb, hany]

/-- Claim C4 (confirmed): for every successful solve whose cumulative
PE sequence strictly exceeds `thr` somewhere, `select_constituents`
returns exactly the constituent names at positions strictly before the
smallest index `i` at which cumulative PE exceeds `thr`; the
constituent that first exceeds the threshold is excluded. -/
theorem select_constituents_take_least_exceeding (coef : CoefficientSet)
    (thr : ℚ) (i : ℕ) (hi : i < (cumsum coef.PE).length)
    (ht : thr < (cumsum coef.PE)[i])
    (hmin : ∀ j, (hj : j < i) → ¬ thr < (cumsum coef.PE)[j]) :
    select_constituents (Except.ok coef) thr = coef.name.take i := by
  unfold select_constituents
  have harg :
      argmaxBool ((cumsum coef.PE).map (fun x => decide (thr < x))) = i := by
    have hlen : i < ((cumsum coef.PE).map (fun x => decide (thr < x))).length := by
      simpa using hi
    apply argmaxBool_eq_first_true _ i hlen
    · simpa [List.getElem_map] using ht
    · intro j hj
      have hjlen : j < (cumsum coef.PE).length := by omega
      have := hmin j hj
      simpa [List.getElem_map] using this
  simp [harg]

/-- Claim C4 witness: with PE `[70, 20, 9, 1]` and `thr = 80` the
cumulative sequence `[70, 90, 99, 100]` first exceeds the threshold at
index 1, so only `c1` is selected. -/
theorem select_constituents_take_least_exceeding_witness :
    select_constituents (Except.ok peExampleCoef) 80 = ["c1"] := by
  have h := select_constituents_take_least_exceeding peExampleCoef 80 1
    (by norm_num [cumsum, peExampleCoef])
    (by norm_num [cumsum, peExampleCoef])
    (by intro j hj; interval_cases j; norm_num [cumsum, peExampleCoef])
  simpa [peExampleCoef] using h

/-- Claim C9 (confirmed): when no cumulative PE entry strictly exceeds
the threshold, the boolean mask is all `false`, argmax returns `0`,
and `select_constituents` returns the empty list. -/
theorem select_constituents_empty_when_no_exceed (coef : CoefficientSet)
    (thr : ℚ) (hall : ∀ x ∈ cumsum coef.PE, x ≤ thr) :
    select_constituents (Except.ok coef) thr = [] := by
  unfold select_constituents
  have harg :
      argmaxBool ((cumsum coef.PE).map (fun x => decide (thr < x))) = 0 := by
    apply argmaxBool_of_all_false
    intro b hb
    rcases List.mem_map.mp hb with ⟨x, hx, hxb⟩
    have := hall x hx
    simp [← hxb, not_lt.mpr this]
  simp [harg]

/-- Claim C9 witness: with PE `[70, 20, 9, 1]` (total 100) and
`thr = 1000` nothing exceeds the threshold and the selection is
empty. -/
theorem select_constituents_empty_when_no_exceed_witness :
    select_constituents (Except.ok peExampleCoef) 1000 = [] := by
  apply select_constituents_empty_when_no_exceed
  intro x hx
  simp only [peExampleCoef, cumsum] at hx
  norm_num at hx
  rcases hx with h | h | h | h <;> norm_num [h]

/-- Claim C1 counterexample: with PE `[70, 20, 9, 1]` (sorted
descending, sum 100) and `thr = 99`, the code returns the first THREE
names, not `["c1", "c2"]`: cumulative PE at position 2 is exactly 99,
which does not strictly exceed 99, so the first strictly-exceeding
position is 3. -/
theorem select_constituents_pe_example_not_two :
    select_constituents (Except.ok peExampleCoef) 99 ≠ ["c1", "c2"] := by
  norm_num [select_constituents, peExampleCoef, cumsum, argmaxBool]

/-- Claim C1 amended (corrected): with PE `[70, 20, 9, 1]` and
`thr = 99`, `select_constituents` returns `["c1", "c2", "c3"]` — the
names at positions strictly before index 3, the first position whose
cumulative PE (100) strictly exceeds 99. -/
theorem select_constituents_pe_example_three :
    select_constituents (Except.ok peExampleCoef) 99 = ["c1", "c2", "c3"] := by
  norm_num [select_constituents, peExampleCoef, cumsum, argmaxBool]

/-- Reading a column that `df` already holds is unchanged by columns
appended behind it. -/
theorem getCol_append_left (df l : FlatRecord) (k : String) (v : ℚ)
    (h : getCol df k = some v) : getCol (df ++ l) k = some v := by
  unfold getCol at h ⊢
  rcases Option.map_eq_some'.mp h with ⟨p, hp, hpv⟩
  rw [List.find?_append, hp]
  simp [hpv]

/-- Column presence in a frame extended by one column. -/
theorem hasCol_append_single (df : FlatRecord) (k k2 : String) (v2 : ℚ) :
    hasCol (df ++ [(k2, v2)]) k = (hasCol df k || (k2 == k)) := by
  unfold hasCol
  simp [List.any_append]

/-- One characteristic-level assignment on a frame holding the three
source columns and not yet the target column appends the target. -/
theorem charLevelStep_appends (df : FlatRecord) (k : String)
    (f : ℚ → ℚ → ℚ → ℚ) (z m s : ℚ)
    (hz : getCol df "z0" = some z) (hm : getCol df "M2_ampl" = some m)
    (hs : getCol df "S2_ampl" = some s) (hk : hasCol df k = false) :
    charLevelStep df k f = some (df ++ [(k, f z m s)]) := by
  unfold charLevelStep
  rw [hz, hm, hs]
  simp [setCol, hk]

/-- One characteristic-level assignment raises KeyError when one of
the three source columns is missing. -/
theorem charLevelStep_none (df : FlatRecord) (k : String)
    (f : ℚ → ℚ → ℚ → ℚ)
    (hmiss : getCol df "z0" = none ∨ getCol df "M2_ampl" = none ∨
      getCol df "S2_ampl" = none) :
    charLevelStep df k f = none := by
  unfold charLevelStep
  cases hz : getCol df "z0" <;> cases hm : getCol df "M2_ampl" <;>
    cases hs : getCol df "S2_ampl" <;> simp_all

/-- Claim C10 (confirmed): the characteristic-level derivation is
atomic.  Every right-hand side of the four assignments reads all of
`z0`, `M2_ampl` and `S2_ampl` before anything is written, so when any
of the three is missing the KeyError strikes before the first
assignment: the frame keeps exactly its original columns and the run
reports failure — it is never left with a strict subset of the four
derived fields. -/
theorem charLevelsRun_atomic (df : FlatRecord)
    (hmiss : getCol df "z0" = none ∨ getCol df "M2_ampl" = none ∨
      getCol df "S2_ampl" = none) :
    (charLevelsRun df).1 = df ∧ (charLevelsRun df).2 = false := by
  unfold charLevelsRun
  rw [charLevelStep_none df "MHWS" (fun a b c => a + b + c) hmiss]
  exact ⟨rfl, rfl⟩

/-- Claim C10 witness: a frame holding only `z0` is returned with
exactly that single column, no `MHWS`, `MLWS`, `MHWN` or `MLWN`. -/
theorem charLevelsRun_atomic_witness :
    (charLevelsRun [("z0", (1 : ℚ))]).1 = [("z0", (1 : ℚ))] ∧
      (charLevelsRun [("z0", (1 : ℚ))]).2 = false :=
  charLevelsRun_atomic [("z0", (1 : ℚ))] (Or.inr (Or.inl (by rfl)))

/-- Claim C5 (confirmed): applied to a record holding `z0`, `M2_ampl`
and `S2_ampl` (and none of the four derived columns yet, as for every
fresh `parse_utide` row), the derivation appends exactly `MHWS`,
`MLWS`, `MHWN` and `MLWN` with the spring/neap formulas; at
`z0 = 0.05`, `M2_ampl = 0.79`, `S2_ampl = 0.02` the four values are
within `1e-9` of `0.86`, `-0.76`, `0.82` and `-0.72` respectively. -/
theorem parse_characteristic_levels_appends (df : FlatRecord) (z m s : ℚ)
    (hz : getCol df "z0" = some z) (hm : getCol df "M2_ampl" = some m)
    (hs : getCol df "S2_ampl" = some s)
    (h1 : hasCol df "MHWS" = false) (h2 : hasCol df "MLWS" = false)
    (h3 : hasCol df "MHWN" = false) (h4 : hasCol df "MLWN" = false) :
    parse_characteristic_levels df =
      some (df ++ [("MHWS", z + m + s), ("MLWS", z - m - s),
        ("MHWN", z + m - s), ("MLWN", z - m + s)]) ∧
    (z = 1/20 → m = 79/100 → s = 1/50 →
      |z + m + s - 86/100| ≤ 1/1000000000 ∧
      |z - m - s - (-(76/100))| ≤ 1/1000000000 ∧
      |z + m - s - 82/100| ≤ 1/1000000000 ∧
      |z - m + s - (-(72/100))| ≤ 1/1000000000) := by
  constructor
  · have e1 := charLevelStep_appends df "MHWS" (fun a b c => a + b + c)
      z m s hz hm hs h1
    have hz1 := getCol_append_left df [("MHWS", z + m + s)] "z0" z hz
    have hm1 := getCol_append_left df [("MHWS", z + m + s)] "M2_ampl" m hm
    have hs1 := getCol_append_left df [("MHWS", z + m + s)] "S2_ampl" s hs
    have h2' : hasCol (df ++ [("MHWS", z + m + s)]) "MLWS" = false := by
      rw [hasCol_append_single, h2]; rfl
    have e2 := charLevelStep_appends (df ++ [("MHWS", z + m + s)]) "MLWS"
      (fun a b c => a - b - c) z m s hz1 hm1 hs1 h2'
    have hz2 := getCol_append_left _ [("MLWS", z - m - s)] "z0" z hz1
    have hm2 := getCol_append_left _ [("MLWS", z - m - s)] "M2_ampl" m hm1
    have hs2 := getCol_append_left _ [("MLWS", z - m - s)] "S2_ampl" s hs1
    have h3' : hasCol (df ++ [("MHWS", z + m + s)] ++ [("MLWS", z - m - s)])
        "MHWN" = false := by
      rw [hasCol_append_single, hasCol_append_single, h3]; rfl
    have e3 := charLevelStep_appends
      (df ++ [("MHWS", z + m + s)] ++ [("MLWS", z - m - s)]) "MHWN"
      (fun a b c => a + b - c) z m s hz2 hm2 hs2 h3'
    have hz3 := getCol_append_left _ [("MHWN", z + m - s)] "z0" z hz2
    have hm3 := getCol_append_left _ [("MHWN", z + m - s)] "M2_ampl" m hm2
    have hs3 := getCol_append_left _ [("MHWN", z + m - s)] "S2_ampl" s hs2
    have h4' : hasCol (df ++ [("MHWS", z + m + s)] ++ [("MLWS", z - m - s)]
        ++ [("MHWN", z + m - s)]) "MLWN" = false := by
      rw [hasCol_append_single, hasCol_append_single, hasCol_append_single, h4]
      rfl
    have e4 := charLevelStep_appends
      (df ++ [("MHWS", z + m + s)] ++ [("MLWS", z - m - s)]
        ++ [("MHWN", z + m - s)]) "MLWN"
      (fun a b c => a - b + c) z m s hz3 hm3 hs3 h4'
    unfold parse_characteristic_levels charLevelsRun
    simp only [e1, e2, e3, e4]
    simp [List.append_assoc]
  · intro hzv hmv hsv
    subst hzv hmv hsv
    norm_num

/-- Claim C5 witness: the concrete record of the spec example. -/
theorem parse_characteristic_levels_appends_witness :
    parse_characteristic_levels
        [("z0", (1 : ℚ)/20), ("M2_ampl", 79/100), ("S2_ampl", 1/50)] =
      some [("z0", (1 : ℚ)/20), ("M2_ampl", 79/100), ("S2_ampl", 1/50),
        ("MHWS", 1/20 + 79/100 + 1/50), ("MLWS", 1/20 - 79/100 - 1/50),
        ("MHWN", 1/20 + 79/100 - 1/50), ("MLWN", 1/20 - 79/100 + 1/50)] ∧
    (|(1 : ℚ)/20 + 79/100 + 1/50 - 86/100| ≤ 1/1000000000 ∧
      |(1 : ℚ)/20 - 79/100 - 1/50 - (-(76/100))| ≤ 1/1000000000 ∧
      |(1 : ℚ)/20 + 79/100 - 1/50 - 82/100| ≤ 1/1000000000 ∧
      |(1 : ℚ)/20 - 79/100 + 1/50 - (-(72/100))| ≤ 1/1000000000) := by
  have h := parse_characteristic_levels_appends
    [("z0", (1 : ℚ)/20), ("M2_ampl", 79/100), ("S2_ampl", 1/50)]
    (1/20) (79/100) (1/50) (by rfl) (by rfl) (by rfl)
    (by rfl) (by rfl) (by rfl) (by rfl)
  exact ⟨h.1, h.2 rfl rfl rfl⟩

/-- Claim C2 (code bug): on a fit without M2 or S2,
`parse_utide(..., include_char_levels=True)` returns Python `None`,
not the base record — `_parse_characteristic_levels` returns `None`
from its `except KeyError` clause and `parse_utide` passes that `None`
on as `res`, contradicting its own docstring (`Returns df:
dataframe`) and the spec sentence that the base record is returned
unmodified.  No exception is raised. -/
theorem parse_utide_none_when_m2_missing :
    parse_utide k1OnlySol true true true false = none := by rfl

/-- Claim C6 (confirmed): for every augmented solve result and every
flag combination, the flat record lists its fields in the fixed order
`z0`, `zmean`, `count`, per-constituent amplitudes, `smean`, `smin`,
`smax`, then phases when `include_phase`, `slope` when present,
`rms_resid` when present, amplitude confidence intervals when present,
phase confidence intervals when present and `include_phase`,
`Rsq_adj` when present, and frequencies when `include_freq`. -/
theorem parse_utide_field_order (sol : AugmentedCoefficientSet)
    (include_phase include_freq : Bool) :
    (parse_utide_build sol include_phase include_freq).names =
      ["z0", "zmean", "count"]
      ++ sol.name.map (fun n => n ++ "_ampl")
      ++ ["smean", "smin", "smax"]
      ++ (if include_phase then sol.name.map (fun n => n ++ "_phase") else [])
      ++ (match sol.slope with
          | some _ => ["slope"]
          | none => [])
      ++ (match sol.rms_resid with
          | some _ => ["rms_resid"]
          | none => [])
      ++ (match sol.A_ci with
          | some _ => sol.name.map (fun n => n ++ "_A_ci")
          | none => [])
      ++ (if include_phase then
            (match sol.g_ci with
              | some _ => sol.name.map (fun n => n ++ "_g_ci")
              | none => [])
          else [])
      ++ (match sol.Rsq_adj with
          | some _ => ["Rsq_adj"]
          | none => [])
      ++ (if include_freq then sol.name.map (fun n => n ++ "_frq") else []) := by
  obtain ⟨⟨name, A, g, PE, mean, slope, rms, aci, gci, frq⟩,
    zmean, count, smean, smin, smax, rsq, meth⟩ := sol
  cases include_phase <;> cases include_freq <;> cases slope <;>
    cases rms <;> cases aci <;> cases gci <;> cases rsq <;>
      simp [parse_utide_build, hstack, List.append_assoc]

/-- The left fold of `min` over a list is one of the seed or the
elements. -/
theorem foldl_min_mem (x : ℚ) (xs : List ℚ) : xs.foldl min x ∈ x :: xs := by
  induction xs generalizing x with
  | nil => simp
  | cons y ys ih =>
    rcases List.mem_cons.mp (ih (min x y)) with h1 | h1
    · rw [List.foldl_cons, h1]
      rcases min_choice x y with hc | hc <;> rw [hc] <;> simp
    · rw [List.foldl_cons]
      exact List.mem_cons_of_mem x (List.mem_cons_of_mem y h1)

/-- The left fold of `min` bounds the seed and every element from
below. -/
theorem foldl_min_le (x : ℚ) (xs : List ℚ) :
    ∀ y ∈ x :: xs, xs.foldl min x ≤ y := by
  induction xs generalizing x with
  | nil =>
    intro y hy
    simp at hy
    simp [hy]
  | cons z zs ih =>
    intro y hy
    rw [List.foldl_cons]
    rcases List.mem_cons.mp hy with h1 | h1
    · calc zs.foldl min (min x z) ≤ min x z :=
            ih (min x z) (min x z) (List.mem_cons_self _ _)
        _ ≤ x := min_le_left x z
        _ = y := h1.symm
    · rcases List.mem_cons.mp h1 with h2 | h2
      · calc zs.foldl min (min x z) ≤ min x z :=
              ih (min x z) (min x z) (List.mem_cons_self _ _)
          _ ≤ z := min_le_right x z
          _ = y := h2.symm
      · exact ih (min x z) y (List.mem_cons_of_mem _ h2)

/-- The left fold of `max` over a list is one of the seed or the
elements. -/
theorem foldl_max_mem (x : ℚ) (xs : List ℚ) : xs.foldl max x ∈ x :: xs := by
  induction xs generalizing x with
  | nil => simp
  | cons y ys ih =>
    rcases List.mem_cons.mp (ih (max x y)) with h1 | h1
    · rw [List.foldl_cons, h1]
      rcases max_choice x y with hc | hc <;> rw [hc] <;> simp
    · rw [List.foldl_cons]
      exact List.mem_cons_of_mem x (List.mem_cons_of_mem y h1)

/-- The left fold of `max` bounds the seed and every element from
above. -/
theorem foldl_le_max (x : ℚ) (xs : List ℚ) :
    ∀ y ∈ x :: xs, y ≤ xs.foldl max x := by
  induction xs generalizing x with
  | nil =>
    intro y hy
    simp at hy
    simp [hy]
  | cons z zs ih =>
    intro y hy
    rw [List.foldl_cons]
    rcases List.mem_cons.mp hy with h1 | h1
    · calc y = x := h1
        _ ≤ max x z := le_max_left x z
        _ ≤ zs.foldl max (max x z) :=
            ih (max x z) (max x z) (List.mem_cons_self _ _)
    · rcases List.mem_cons.mp h1 with h2 | h2
      · calc y = z := h2
          _ ≤ max x z := le_max_right x z
          _ ≤ zs.foldl max (max x z) :=
              ih (max x z) (max x z) (List.mem_cons_self _ _)
      · exact ih (max x z) y (List.mem_cons_of_mem _ h2)

/-- `listMin` of a non-empty list is its least element. -/
theorem listMin_spec (l : List ℚ) (hne : l ≠ []) :
    listMin l ∈ l ∧ ∀ y ∈ l, listMin l ≤ y := by
  cases l with
  | nil => exact absurd rfl hne
  | cons x xs => exact ⟨foldl_min_mem x xs, foldl_min_le x xs⟩

/-- `listMax` of a non-empty list is its greatest element. -/
theorem listMax_spec (l : List ℚ) (hne : l ≠ []) :
    listMax l ∈ l ∧ ∀ y ∈ l, y ≤ listMax l := by
  cases l with
  | nil => exact absurd rfl hne
  | cons x xs => exact ⟨foldl_max_mem x xs, foldl_le_max x xs⟩

/-- Claim C7 (confirmed): for every successful solve, the residual
attached by `run_utide_solve` satisfies
`residual[i] = observed[i] - predicted[i]` at every index, and the
attached `smean`, `smin` and `smax` are the arithmetic mean (sum over
length), the minimum and the maximum of that residual sequence. -/
theorem run_utide_solve_residual_stats
    (solveResult : Except String CoefficientSet)
    (reconstruct : CoefficientSet → List ℚ) (rsq : ℚ) (meth_N : String)
    (h : List ℚ) (sol : AugmentedCoefficientSet)
    (hok : run_utide_solve solveResult reconstruct rsq meth_N h =
      Except.ok sol)
    (hne : residual h (reconstruct sol.toCoefficientSet) ≠ []) :
    (∀ i, (hi : i < (residual h (reconstruct sol.toCoefficientSet)).length) →
      (hh : i < h.length) →
      (hm : i < (reconstruct sol.toCoefficientSet).length) →
      (residual h (reconstruct sol.toCoefficientSet))[i] =
        h[i] - (reconstruct sol.toCoefficientSet)[i]) ∧
    sol.smean = (residual h (reconstruct sol.toCoefficientSet)).sum /
      (residual h (reconstruct sol.toCoefficientSet)).length ∧
    (sol.smin ∈ residual h (reconstruct sol.toCoefficientSet) ∧
      ∀ y ∈ residual h (reconstruct sol.toCoefficientSet), sol.smin ≤ y) ∧
    (sol.smax ∈ residual h (reconstruct sol.toCoefficientSet) ∧
      ∀ y ∈ residual h (reconstruct sol.toCoefficientSet), y ≤ sol.smax) := by
  cases solveResult with
  | error e => simp [run_utide_solve] at hok
  | ok c =>
    simp only [run_utide_solve] at hok
    rw [Except.ok.injEq] at hok
    subst hok
    refine ⟨?_, rfl, ?_, ?_⟩
    · intro i hi hh hm
      simp [residual, List.getElem_zipWith]
    · exact listMin_spec _ hne
    · exact listMax_spec _ hne

/-- Claim C7 witness: observations `[2, 0]` against predictions
`[1, 1]` give the residual `[1, -1]`, whose mean, minimum and maximum
are attached as `smean = 0`, `smin = -1`, `smax = 1`. -/
theorem run_utide_solve_residual_stats_witness :
    runExampleSol.smean = (residual [2, 0] [1, 1]).sum /
      (residual [2, 0] [1, 1]).length ∧
    runExampleSol.smin ∈ residual [2, 0] [1, 1] ∧
    runExampleSol.smax ∈ residual [2, 0] [1, 1] := by
  have hw := run_utide_solve_residual_stats (Except.ok peExampleCoef)
    (fun _ => [1, 1]) (1/2) "Bence" [2, 0] runExampleSol
    (by norm_num [run_utide_solve, residual, listMean, listMin,
      listMax, runExampleSol])
    (by norm_num [residual, runExampleSol]
        exact List.cons_ne_nil _ _)
  exact ⟨hw.2.1, hw.2.2.1.1, hw.2.2.2.1⟩

/-- Claim C3 (code bug): on a failed solve, `run_utide_solve` returns
the exception message string, but `tide_and_setup` only intercepts the
exact string `"Utide failed"` — a value `run_utide_solve` itself never
constructs.  Any other failure message (here `"matrix is singular"`)
flows into `ut.reconstruct`, which raises instead of returning the
sentinel `None`. -/
theorem tide_and_setup_raises_on_generic_failure :
    tide_and_setup (Except.error "matrix is singular") (fun _ => []) 0
      "Bence" [] = PyResult.exn "reconstruct requires a coefficient result" :=
  rfl

/-- A segment whose solve succeeded always flattens to a record: with
`include_char_levels` at its default `False`, `parse_utide` cannot
return `None`. -/
theorem constit_segment_isSome_of_ok (seg : Segment) (phase : Bool)
    (c : CoefficientSet) (hs : seg.solveResult = Except.ok c) :
    (constit_segment seg phase false false).isSome = true := by
  simp [constit_segment, hs, run_utide_solve, parse_utide]

/-- The constituent table has exactly one row per segment whose solve
succeeded. -/
theorem analyse_constit_length (segs : List Segment) (phase : Bool) :
    (analyse_constit segs phase).length =
      segs.countP (fun seg => solveOk seg.solveResult) := by
  induction segs with
  | nil => rfl
  | cons seg rest ih =>
    have hrec : (analyse_constit (seg :: rest) phase).length =
        ((constit_segment seg phase false false).toList).length +
          (analyse_constit rest phase).length := by
      simp [analyse_constit, List.flatMap_cons]
    rw [hrec, ih, List.countP_cons]
    cases hs : seg.solveResult with
    | error e =>
      simp [constit_segment, hs, run_utide_solve, solveOk]
    | ok c =>
      simp [constit_segment, hs, run_utide_solve, parse_utide, solveOk,
        Nat.add_comm]

/-- Claim C8 (confirmed): for every batch, the constituent table of
`analyse_long_series` has exactly one row per segment whose solve
succeeded, and a segment whose solve failed contributes no row to the
constituent table and no rows to the time-series output; processing
is a total function over the remaining segments, so one failure never
aborts the batch. -/
theorem analyse_long_series_row_isolation (segs : List Segment)
    (create_time_series include_phase : Bool) :
    ((analyse_long_series segs create_time_series include_phase).2).length =
      segs.countP (fun seg => solveOk seg.solveResult) ∧
    ∀ seg, seg ∈ segs → solveOk seg.solveResult = false →
      constit_segment seg include_phase false false = none ∧
      timeseries_segment seg = none := by
  constructor
  · cases create_time_series <;>
      simpa [analyse_long_series] using
        analyse_constit_length segs include_phase
  · intro seg _ hfail
    cases hs : seg.solveResult with
    | ok c => simp [solveOk, hs] at hfail
    | error e =>
      exact ⟨by simp [constit_segment, hs, run_utide_solve],
        by simp [timeseries_segment, hs, run_utide_solve]⟩

/-- Claim C8 witness: a batch of one succeeding and one failing
segment yields a one-row constituent table, and the failing segment
contributes nothing to either output. -/
theorem analyse_long_series_row_isolation_witness :
    ((analyse_long_series [segOkExample, segFailExample] true false).2).length
        = 1 ∧
    constit_segment segFailExample false false false = none ∧
    timeseries_segment segFailExample = none := by
  have hw := analyse_long_series_row_isolation [segOkExample, segFailExample]
    true false
  exact ⟨by rw [hw.1]; rfl,
    (hw.2 segFailExample (by simp) rfl).1,
    (hw.2 segFailExample (by simp) rfl).2⟩

end HvecTide
